import Mathlib

/-!
Verification of the wallet/history persistence layer of a FastAPI wallet
application.

The embedding models the relational state as two lists of rows (`wallets`,
`histories`) together with the autoincrement counters for the two primary
keys.  SQLAlchemy's `session.scalar(select ... where ...)` is modelled by
`scalar`, which returns the first row satisfying the WHERE predicate;
in-place mutation of a loaded ORM object followed by `flush` is modelled by
`updateFirst`, and `session.delete` by `deleteFirst`.  The `CHECK (amount > 0)`
column constraint of the `histories` table is enforced at flush time, exactly
where SQLite enforces it.  Domain entities (`Wallet`, `History`, from
`app/models.py`) are separate from the ORM rows (`WalletORM`, `HistoryORM`,
from `app/repositories/wallet.py`), with the same conversion functions the
source defines.

The development has two layers.  The source contains several unconditional
dynamic errors: `WalletRepository.add` passes the invalid constructor
keyword `history=[]` (wallet.py:121; the mapped attribute is `histories`),
`app/models.py:16` misspells pydantic's `from_attributes` as
`from_attribute` so every `model_validate(orm_row)` raises
ValidationError, the four history-mutating use cases write
`async with self.session` on the `async_sessionmaker` itself
(use_cases.py:66,104,135,167) and raise TypeError at entry, and
`CreateHistory` passes `type=type_` against the repository parameter
`type_` (use_cases.py:76).  The `..._asWritten` definitions model this
actual behavior, with `PyException` for the dynamic errors.  The plainly
named definitions model the intended semantics with those slips repaired
(each repair is noted at the definition); on branches that never reach the
broken constructs — the defensive error branches of the repository and
the absent-entity branches of the reads — the two layers agree and the
plain definitions are the faithful translation.
-/

/-- `HistoryType` from `app/models.py`: enum with members INCOME and OUTCOME. -/
inductive HistoryType where
  | INCOME
  | OUTCOME
deriving DecidableEq, Repr

/-- `History` entity from `app/models.py`.  `amount` is declared
`PositiveInt` there; timestamps are modelled as integers (UTC epoch). -/
structure History where
  history_id : Nat
  name : String
  amount : Int
  type : HistoryType
  history_at : Int
  wallet_id : Nat
deriving DecidableEq, Repr

/-- `Wallet` entity from `app/models.py`. -/
structure Wallet where
  wallet_id : Nat
  name : String
  histories : List History
deriving DecidableEq, Repr

/-- `Wallet.balance` from `app/models.py`:
`sum(h.amount if h.type == HistoryType.INCOME else -h.amount for h in self.histories)`. -/
def Wallet.balance (w : Wallet) : Int :=
  (w.histories.map (fun h =>
    if h.type = HistoryType.INCOME then h.amount else -h.amount)).sum

/-- A row of the `histories` table (`HistoryORM` in
`app/repositories/wallet.py`): columns history_id (PK), name,
amount (CHECK amount > 0), type, wallet_id (FK wallets.wallet_id
ON DELETE CASCADE), history_at. -/
structure HistoryORM where
  history_id : Nat
  name : String
  amount : Int
  type : HistoryType
  wallet_id : Nat
  history_at : Int
deriving DecidableEq, Repr

/-- `HistoryORM.from_entity`: build a row from the entity, field by field. -/
def HistoryORM.from_entity (history : History) : HistoryORM :=
  { history_id := history.history_id
    name := history.name
    amount := history.amount
    type := history.type
    history_at := history.history_at
    wallet_id := history.wallet_id }

/-- `HistoryORM.to_entity`, intended semantics: `History.model_validate(self)`
as a field-by-field conversion of the row into the entity.  As written the
source raises ValidationError on every call because of the
`from_attribute` config typo (models.py:16) — see
`HistoryORM.to_entity_asWritten`. -/
def HistoryORM.to_entity (r : HistoryORM) : History :=
  { history_id := r.history_id
    name := r.name
    amount := r.amount
    type := r.type
    history_at := r.history_at
    wallet_id := r.wallet_id }

/-- `HistoryORM.update`: overwrite name, amount, type, wallet_id and
history_at from the given entity (the primary key is not touched). -/
def HistoryORM.update (r : HistoryORM) (history : History) : HistoryORM :=
  { r with
    name := history.name
    amount := history.amount
    type := history.type
    wallet_id := history.wallet_id
    history_at := history.history_at }

/-- A row of the `wallets` table (`WalletORM`): columns wallet_id (PK), name.
The `histories` attribute of the ORM class is a relationship, i.e. derived
from the `histories` table by `wallet_id`, so it is not a column here. -/
structure WalletORM where
  wallet_id : Nat
  name : String
deriving DecidableEq, Repr

/-- `WalletORM.update`: overwrite the name; the `histories` relationship is
reassigned to the already-loaded collection passed in by the caller
(`wallet_.update(wallet, wallet_.histories)`), which changes no row of the
`histories` table. -/
def WalletORM.update (r : WalletORM) (wallet : Wallet) : WalletORM :=
  { r with name := wallet.name }

/-- The relational state: the two tables plus the autoincrement counters of
the two primary keys. -/
structure DB where
  wallets : List WalletORM
  histories : List HistoryORM
  next_wallet_id : Nat
  next_history_id : Nat
deriving DecidableEq, Repr

/-- Failure outcomes of a repository or use-case call, from
`app/exceptions.py` plus the storage driver:
`appException` is the generic 500-class `AppException` (StorageFailure),
`notFound` is the domain `NotFound(resource, resource_id)` (404-class),
`integrityError` is the driver error raised at flush when the
`CHECK (amount > 0)` constraint is violated. -/
inductive AppError where
  | appException
  | notFound (resource : String) (resource_id : Nat)
  | integrityError
deriving DecidableEq, Repr

/-- `session.scalar(select(T).where(p))`: the first row satisfying `p`,
if any. -/
def scalar {α : Type} (p : α → Bool) : List α → Option α
  | [] => none
  | x :: xs => if p x then some x else scalar p xs

/-- Mutating the first row satisfying `p` in place and flushing. -/
def updateFirst {α : Type} (p : α → Bool) (f : α → α) : List α → List α
  | [] => []
  | x :: xs => if p x then f x :: xs else x :: updateFirst p f xs

/-- `session.delete` of the first row satisfying `p`. -/
def deleteFirst {α : Type} (p : α → Bool) : List α → List α
  | [] => []
  | x :: xs => if p x then xs else x :: deleteFirst p xs

/-- Insertion step for the `order_by=HistoryORM.history_at.desc()` ordering
of a wallet's loaded histories collection. -/
def insertDesc (r : HistoryORM) : List HistoryORM → List HistoryORM
  | [] => [r]
  | x :: xs => if r.history_at ≤ x.history_at then x :: insertDesc r xs
               else r :: x :: xs

/-- Sort rows by `history_at` descending (the relationship's ORDER BY). -/
def sortDesc : List HistoryORM → List HistoryORM
  | [] => []
  | x :: xs => insertDesc x (sortDesc xs)

/-- Loading the `histories` relationship of a wallet: the rows of the
`histories` table whose `wallet_id` matches, ordered by `history_at`
descending. -/
def load_histories (db : DB) (wallet_id : Nat) : List HistoryORM :=
  sortDesc (db.histories.filter (fun r => r.wallet_id == wallet_id))

/-- `WalletORM.to_entity`, intended semantics: `Wallet.model_validate(self)`
with the eagerly loaded histories collection.  As written the source
raises ValidationError on every call (`from_attribute` typo,
models.py:16) — see `WalletORM.to_entity_asWritten`. -/
def WalletORM.to_entity (r : WalletORM) (db : DB) : Wallet :=
  { wallet_id := r.wallet_id
    name := r.name
    histories := (load_histories db r.wallet_id).map HistoryORM.to_entity }

/-- `WalletRepository.add`, intended semantics: insert a fresh wallet row
(the primary key is generated by storage; the new wallet has no rows in
the `histories` table) and return its entity.  As written the source
passes the invalid keyword `history=[]` to `WalletORM` (wallet.py:121;
the mapped attribute is `histories`) and raises TypeError on every call —
see `WalletRepository.add_asWritten`. -/
def WalletRepository.add (db : DB) (name : String) : Wallet × DB :=
  let wallet : WalletORM := { wallet_id := db.next_wallet_id, name := name }
  let db' : DB := { db with
    wallets := db.wallets ++ [wallet]
    next_wallet_id := db.next_wallet_id + 1 }
  (wallet.to_entity db', db')

/-- `WalletRepository.get_by_id`: select the wallet row by id with eagerly
loaded histories; `None` when absent.  The absent branch is the source's;
the present branch models the intended `to_entity`, which as written
raises ValidationError — see `WalletRepository.get_by_id_asWritten`. -/
def WalletRepository.get_by_id (db : DB) (wallet_id : Nat) : Option Wallet :=
  match scalar (fun r => r.wallet_id == wallet_id) db.wallets with
  | none => none
  | some wallet => some (wallet.to_entity db)

/-- `WalletRepository.get_all`: every wallet, histories loaded eagerly. -/
def WalletRepository.get_all (db : DB) : List Wallet :=
  db.wallets.map (fun r => r.to_entity db)

/-- `WalletRepository.add_history`: select the wallet by id; if absent raise
`AppException()`; otherwise insert a history row with a fresh primary key and
`wallet_id = wallet.wallet_id` and flush (where the `CHECK (amount > 0)`
constraint rejects a non-positive amount).  The two error branches are the
source's; the successful return models the intended `to_entity`, which as
written raises ValidationError after the flush — see
`WalletRepository.add_history_asWritten`. -/
def WalletRepository.add_history (db : DB) (wallet_id : Nat) (name : String)
    (amount : Int) (type_ : HistoryType) (history_at : Int) :
    Except AppError History × DB :=
  match scalar (fun r => r.wallet_id == wallet_id) db.wallets with
  | none => (Except.error AppError.appException, db)
  | some wallet =>
    if amount ≤ 0 then (Except.error AppError.integrityError, db)
    else
      let history : HistoryORM :=
        { history_id := db.next_history_id
          name := name
          amount := amount
          type := type_
          history_at := history_at
          wallet_id := wallet.wallet_id }
      (Except.ok history.to_entity,
       { db with
         histories := db.histories ++ [history]
         next_history_id := db.next_history_id + 1 })

/-- `WalletRepository.update`: select the wallet row by `wallet.wallet_id`;
if absent raise `AppException()`; otherwise overwrite its name (the histories
relationship is reassigned to the collection already loaded, a no-op on the
table) and return the updated entity.  The absent branch is the source's;
the successful return models the intended `to_entity`, which as written
raises ValidationError after the flush — see
`WalletRepository.update_asWritten`. -/
def WalletRepository.update (db : DB) (wallet : Wallet) :
    Except AppError Wallet × DB :=
  match scalar (fun r => r.wallet_id == wallet.wallet_id) db.wallets with
  | none => (Except.error AppError.appException, db)
  | some wallet_ =>
    let db' : DB := { db with
      wallets := updateFirst (fun r => r.wallet_id == wallet.wallet_id)
        (fun r => r.update wallet) db.wallets }
    (Except.ok ((wallet_.update wallet).to_entity db'), db')

/-- `WalletRepository.delete`: select the wallet row by id; no-op when
absent; otherwise delete the row, cascading the deletion to every history row
whose `wallet_id` references it (ON DELETE CASCADE and the relationship's
delete cascade). -/
def WalletRepository.delete (db : DB) (wallet : Wallet) : DB :=
  match scalar (fun r => r.wallet_id == wallet.wallet_id) db.wallets with
  | none => db
  | some wallet_ =>
    { db with
      wallets := deleteFirst (fun r => r.wallet_id == wallet.wallet_id)
        db.wallets
      histories := db.histories.filter
        (fun r => !(r.wallet_id == wallet_.wallet_id)) }

/-- `WalletRepository.get_history_by_id`: scoped select requiring both
`wallet_id` and `history_id` to match; `None` when absent.  The absent
branch is the source's; the present branch models the intended
`to_entity`, which as written raises ValidationError — see
`WalletRepository.get_history_by_id_asWritten`. -/
def WalletRepository.get_history_by_id (db : DB) (wallet_id : Nat)
    (history_id : Nat) : Option History :=
  match scalar (fun r => r.wallet_id == wallet_id &&
      r.history_id == history_id) db.histories with
  | none => none
  | some history_ => some history_.to_entity

/-- `WalletRepository.update_history`: select the history row scoped by
`(wallet_id, history.history_id)`; if absent raise `AppException()`;
otherwise overwrite all mutable fields — `wallet_id` included — from the
given entity and flush (where `CHECK (amount > 0)` rejects a non-positive
amount).  The two error branches are the source's; the successful return
models the intended `to_entity`, which as written raises ValidationError
after the flush — see `WalletRepository.update_history_asWritten`. -/
def WalletRepository.update_history (db : DB) (wallet_id : Nat)
    (history : History) : Except AppError History × DB :=
  match scalar (fun r => r.wallet_id == wallet_id &&
      r.history_id == history.history_id) db.histories with
  | none => (Except.error AppError.appException, db)
  | some history_ =>
    if history.amount ≤ 0 then (Except.error AppError.integrityError, db)
    else
      (Except.ok ((history_.update history).to_entity),
       { db with
         histories := updateFirst
           (fun r => r.wallet_id == wallet_id &&
             r.history_id == history.history_id)
           (fun r => r.update history) db.histories })

/-- `WalletRepository.delete_history`: select the history row scoped by
`(wallet_id, history.history_id)`; no-op when absent; otherwise delete it. -/
def WalletRepository.delete_history (db : DB) (wallet_id : Nat)
    (history : History) : DB :=
  match scalar (fun r => r.wallet_id == wallet_id &&
      r.history_id == history.history_id) db.histories with
  | none => db
  | some _ =>
    { db with
      histories := deleteFirst
        (fun r => r.wallet_id == wallet_id &&
          r.history_id == history.history_id) db.histories }

/-- Use case `GetHistory.execute`: scoped lookup, raising
`NotFound("history", history_id)` when absent.  This use case opens its
session correctly (`self.session()`), and the absent branch — the one the
theorems exercise — is exactly the source's; the present branch models
the intended `to_entity`. -/
def GetHistory.execute (db : DB) (wallet_id history_id : Nat) :
    Except AppError History :=
  match WalletRepository.get_history_by_id db wallet_id history_id with
  | none => Except.error (AppError.notFound "history" history_id)
  | some history => Except.ok history

/-- Use case `CreateHistory.execute`, intended semantics: verify the wallet
exists (raising `NotFound("wallet", wallet_id)` otherwise), then insert
the history under it via the repository.  As written the source raises
TypeError at `async with self.session` (use_cases.py:66, the
`async_sessionmaker` is not an async context manager) on every call, and
even past that the call `add_history(..., type=type_, ...)` would raise
TypeError against the repository's `type_` parameter (use_cases.py:76) —
see `CreateHistory.execute_asWritten`. -/
def CreateHistory.execute (db : DB) (wallet_id : Nat) (name : String)
    (amount : Int) (type_ : HistoryType) (history_at : Int) :
    Except AppError History × DB :=
  match WalletRepository.get_by_id db wallet_id with
  | none => (Except.error (AppError.notFound "wallet" wallet_id), db)
  | some wallet =>
    WalletRepository.add_history db wallet.wallet_id name amount type_
      history_at

/-- Use case `UpdateHistory.excute` (the source spells it `excute`),
intended semantics: load the history scoped to the wallet, raising
`NotFound("history", history_id)` when absent; overwrite name, amount,
type and history_at on the entity (its `wallet_id` is left as loaded);
persist through `WalletRepository.update_history` (a repository failure
propagates unchanged); return the mutated entity.  As written the source
raises TypeError at `async with self.session` (use_cases.py:104) on every
call — see `UpdateHistory.excute_asWritten`. -/
def UpdateHistory.excute (db : DB) (wallet_id history_id : Nat)
    (name : String) (amount : Int) (type_ : HistoryType) (history_at : Int) :
    Except AppError History × DB :=
  match WalletRepository.get_history_by_id db wallet_id history_id with
  | none => (Except.error (AppError.notFound "history" history_id), db)
  | some history =>
    let history : History := { history with
      name := name
      amount := amount
      type := type_
      history_at := history_at }
    let res := WalletRepository.update_history db wallet_id history
    (res.1.map (fun _ => history), res.2)

/-- Use case `DeleteHistory.excute` (the source spells it `excute`),
intended semantics: load the history scoped to the wallet; when present,
delete it through the repository (passing `history.wallet_id` as the
scope); when absent, return silently.  As written the source raises
TypeError at `async with self.session` (use_cases.py:135) on every call —
see `DeleteHistory.excute_asWritten`. -/
def DeleteHistory.excute (db : DB) (wallet_id history_id : Nat) : DB :=
  match WalletRepository.get_history_by_id db wallet_id history_id with
  | none => db
  | some history =>
    WalletRepository.delete_history db history.wallet_id history

/-- Use case `MoveHistory.execute`, intended semantics: load the history
scoped to the source wallet, raising `NotFound("history", history_id)`
when absent; load the destination wallet, raising
`NotFound("wallet", wallet_id)` — with the source id, as the source code
does — when absent; reassign the entity's `wallet_id` to the
destination's id; persist through `WalletRepository.update_history`
scoped by the original `wallet_id` (a repository failure propagates
unchanged); return the mutated entity.  As written the source raises
TypeError at `async with self.session` (use_cases.py:167) on every call —
see `MoveHistory.execute_asWritten`. -/
def MoveHistory.execute (db : DB) (wallet_id history_id destination_id : Nat) :
    Except AppError History × DB :=
  match WalletRepository.get_history_by_id db wallet_id history_id with
  | none => (Except.error (AppError.notFound "history" history_id), db)
  | some history =>
    match WalletRepository.get_by_id db destination_id with
    | none => (Except.error (AppError.notFound "wallet" wallet_id), db)
    | some wallet =>
      let history : History := { history with wallet_id := wallet.wallet_id }
      let res := WalletRepository.update_history db wallet_id history
      (res.1.map (fun _ => history), res.2)

/-- The dynamic Python exceptions the source raises before or instead of
its intended behavior: `typeError` covers the invalid constructor keyword
`history=[]` (wallet.py:121), using the `async_sessionmaker` itself as an
async context manager (`async with self.session`,
use_cases.py:66,104,135,167), and the `type=type_` keyword mismatch
(use_cases.py:76); `validationError` is pydantic's ValidationError caused
by the misspelled config key `from_attribute` (models.py:16), under which
`model_validate` of an ORM instance fails on every call; `appError` wraps
the intended domain failures. -/
inductive PyException where
  | typeError
  | validationError
  | appError (e : AppError)
deriving DecidableEq, Repr

/-- `HistoryORM.to_entity` as written: `History.model_validate(self)` under
`ConfigDict(from_attribute=True)` — a misspelling of `from_attributes`
that pydantic v2 does not recognise — raises ValidationError on every ORM
row. -/
def HistoryORM.to_entity_asWritten (_ : HistoryORM) :
    Except PyException History :=
  Except.error PyException.validationError

/-- `WalletORM.to_entity` as written: `Wallet.model_validate(self)` under
the same `from_attribute` typo raises ValidationError on every row. -/
def WalletORM.to_entity_asWritten (_ : WalletORM) (_ : DB) :
    Except PyException Wallet :=
  Except.error PyException.validationError

/-- `WalletRepository.add` as written: `WalletORM(name=name, history=[])`
passes the invalid keyword `history` (the mapped attribute is
`histories`), so the declarative constructor raises TypeError on every
call, before any insert; the database is untouched. -/
def WalletRepository.add_asWritten (_ : DB) (_ : String) :
    Except PyException (Wallet × DB) :=
  Except.error PyException.typeError

/-- `WalletRepository.get_by_id` as written: an absent wallet returns
`None`; a present wallet reaches `wallet.to_entity()`, which raises
ValidationError. -/
def WalletRepository.get_by_id_asWritten (db : DB) (wallet_id : Nat) :
    Except PyException (Option Wallet) :=
  match scalar (fun r => r.wallet_id == wallet_id) db.wallets with
  | none => Except.ok none
  | some wallet => (wallet.to_entity_asWritten db).map some

/-- `WalletRepository.get_history_by_id` as written: an absent history
returns `None`; a present history reaches `history_.to_entity()`, which
raises ValidationError. -/
def WalletRepository.get_history_by_id_asWritten (db : DB)
    (wallet_id history_id : Nat) : Except PyException (Option History) :=
  match scalar (fun r => r.wallet_id == wallet_id &&
      r.history_id == history_id) db.histories with
  | none => Except.ok none
  | some history_ => history_.to_entity_asWritten.map some

/-- `WalletRepository.add_history` as written: the absent-wallet
`AppException()` and the `CHECK (amount > 0)` rejection at flush are
exactly the source's; on the success path the row is inserted and
flushed, but `history.to_entity()` then raises ValidationError, so the
call never returns a `History`. -/
def WalletRepository.add_history_asWritten (db : DB) (wallet_id : Nat)
    (name : String) (amount : Int) (type_ : HistoryType)
    (history_at : Int) : Except PyException History × DB :=
  match scalar (fun r => r.wallet_id == wallet_id) db.wallets with
  | none => (Except.error (PyException.appError AppError.appException), db)
  | some wallet =>
    if amount ≤ 0 then
      (Except.error (PyException.appError AppError.integrityError), db)
    else
      let history : HistoryORM :=
        { history_id := db.next_history_id
          name := name
          amount := amount
          type := type_
          history_at := history_at
          wallet_id := wallet.wallet_id }
      (history.to_entity_asWritten,
       { db with
         histories := db.histories ++ [history]
         next_history_id := db.next_history_id + 1 })

/-- `WalletRepository.update` as written: the absent branch raises
`AppException()` (exactly the source's); on the success path the name is
overwritten and flushed, and `wallet_.to_entity()` then raises
ValidationError, so the call never returns a `Wallet`. -/
def WalletRepository.update_asWritten (db : DB) (wallet : Wallet) :
    Except PyException Wallet × DB :=
  match scalar (fun r => r.wallet_id == wallet.wallet_id) db.wallets with
  | none => (Except.error (PyException.appError AppError.appException), db)
  | some wallet_ =>
    let db' : DB := { db with
      wallets := updateFirst (fun r => r.wallet_id == wallet.wallet_id)
        (fun r => r.update wallet) db.wallets }
    ((wallet_.update wallet).to_entity_asWritten db', db')

/-- `WalletRepository.update_history` as written: the absent-row
`AppException()` and the `CHECK (amount > 0)` rejection at flush are
exactly the source's; the success path flushes the update and then raises
ValidationError at `history_.to_entity()`. -/
def WalletRepository.update_history_asWritten (db : DB) (wallet_id : Nat)
    (history : History) : Except PyException History × DB :=
  match scalar (fun r => r.wallet_id == wallet_id &&
      r.history_id == history.history_id) db.histories with
  | none => (Except.error (PyException.appError AppError.appException), db)
  | some history_ =>
    if history.amount ≤ 0 then
      (Except.error (PyException.appError AppError.integrityError), db)
    else
      ((history_.update history).to_entity_asWritten,
       { db with
         histories := updateFirst
           (fun r => r.wallet_id == wallet_id &&
             r.history_id == history.history_id)
           (fun r => r.update history) db.histories })

/-- `CreateHistory.execute` as written: `async with self.session` treats
the `async_sessionmaker` itself as an async context manager and raises
TypeError on every call (use_cases.py:66), before any session work; the
database is untouched. -/
def CreateHistory.execute_asWritten (db : DB) (_ : Nat) (_ : String)
    (_ : Int) (_ : HistoryType) (_ : Int) :
    Except PyException History × DB :=
  (Except.error PyException.typeError, db)

/-- `UpdateHistory.excute` as written: raises TypeError at
`async with self.session` on every call (use_cases.py:104), before any
session work; the database is untouched. -/
def UpdateHistory.excute_asWritten (db : DB) (_ _ : Nat) (_ : String)
    (_ : Int) (_ : HistoryType) (_ : Int) :
    Except PyException History × DB :=
  (Except.error PyException.typeError, db)

/-- `DeleteHistory.excute` as written: raises TypeError at
`async with self.session` on every call (use_cases.py:135) — even a
delete of an absent history does not return silently; the database is
untouched. -/
def DeleteHistory.excute_asWritten (db : DB) (_ _ : Nat) :
    Except PyException Unit × DB :=
  (Except.error PyException.typeError, db)

/-- `MoveHistory.execute` as written: raises TypeError at
`async with self.session` on every call (use_cases.py:167), before the
source-history load, the destination check, or any write; the database is
untouched. -/
def MoveHistory.execute_asWritten (db : DB) (_ _ _ : Nat) :
    Except PyException History × DB :=
  (Except.error PyException.typeError, db)

/-- Primary-key uniqueness of the `wallets` table. -/
def WalletIdsUnique (db : DB) : Prop :=
  db.wallets.Pairwise (fun a b => a.wallet_id ≠ b.wallet_id)

/-- Primary-key uniqueness of the `histories` table. -/
def HistoryIdsUnique (db : DB) : Prop :=
  db.histories.Pairwise (fun a b => a.history_id ≠ b.history_id)

/-- Referential integrity: every history row's `wallet_id` references an
existing wallet row. -/
def RefIntegrity (db : DB) : Prop :=
  ∀ r ∈ db.histories, ∃ w ∈ db.wallets, r.wallet_id = w.wallet_id

/-- The `CHECK (amount > 0)` constraint, as a property of the stored table. -/
def AmountsPositive (db : DB) : Prop :=
  ∀ r ∈ db.histories, 0 < r.amount

/-- The autoincrement counters are ahead of every stored primary key. -/
def IdsFresh (db : DB) : Prop :=
  (∀ w ∈ db.wallets, w.wallet_id < db.next_wallet_id) ∧
  (∀ r ∈ db.histories, r.history_id < db.next_history_id)

/-- Well-formedness of a database state: both primary keys unique, foreign
keys valid, the CHECK constraint satisfied, counters fresh. -/
def WF (db : DB) : Prop :=
  WalletIdsUnique db ∧ HistoryIdsUnique db ∧ RefIntegrity db ∧
  AmountsPositive db ∧ IdsFresh db

instance : DecidablePred WF := fun db => by
  unfold WF WalletIdsUnique HistoryIdsUnique RefIntegrity AmountsPositive
    IdsFresh
  infer_instance

/-! ### Generic lemmas about `scalar`, `updateFirst`, `deleteFirst` -/

theorem scalar_eq_some {α : Type} {p : α → Bool} {l : List α} {x : α}
    (h : scalar p l = some x) : p x = true ∧ x ∈ l := by
  induction l with
  | nil => simp [scalar] at h
  | cons a as ih =>
    by_cases hpa : p a = true
    · simp [scalar, hpa] at h
      subst h
      exact ⟨hpa, List.mem_cons_self a as⟩
    · simp [scalar, hpa] at h
      obtain ⟨h1, h2⟩ := ih h
      exact ⟨h1, List.mem_cons_of_mem a h2⟩

theorem scalar_eq_none {α : Type} {p : α → Bool} {l : List α} :
    scalar p l = none ↔ ∀ y ∈ l, p y = false := by
  induction l with
  | nil => simp [scalar]
  | cons a as ih =>
    by_cases hpa : p a = true
    · simp [scalar, hpa]
    · rw [Bool.not_eq_true] at hpa
      simp [scalar, hpa, ih]

theorem scalar_decomp {α : Type} {p : α → Bool} {l : List α} {x : α}
    (h : scalar p l = some x) :
    ∃ l₁ l₂, l = l₁ ++ x :: l₂ ∧ (∀ y ∈ l₁, p y = false) ∧ p x = true := by
  induction l with
  | nil => simp [scalar] at h
  | cons a as ih =>
    by_cases hpa : p a = true
    · simp [scalar, hpa] at h
      subst h
      exact ⟨[], as, rfl, by simp, hpa⟩
    · simp [scalar, hpa] at h
      obtain ⟨l₁, l₂, rfl, h1, h2⟩ := ih h
      refine ⟨a :: l₁, l₂, rfl, ?_, h2⟩
      intro y hy
      rcases List.mem_cons.mp hy with rfl | hy
      · exact Bool.not_eq_true _ ▸ hpa
      · exact h1 y hy

theorem scalar_append_of_left_none {α : Type} {p : α → Bool} {l₁ : List α}
    (l₂ : List α) (h : ∀ y ∈ l₁, p y = false) :
    scalar p (l₁ ++ l₂) = scalar p l₂ := by
  induction l₁ with
  | nil => rfl
  | cons a as ih =>
    have ha : p a = false := h a (List.mem_cons_self a as)
    simp [scalar, ha]
    exact ih (fun y hy => h y (List.mem_cons_of_mem a hy))

theorem scalar_cons_of_pos {α : Type} {p : α → Bool} {x : α} (l : List α)
    (h : p x = true) : scalar p (x :: l) = some x := by
  simp [scalar, h]

theorem scalar_cons_of_neg {α : Type} {p : α → Bool} {x : α} (l : List α)
    (h : p x = false) : scalar p (x :: l) = scalar p l := by
  simp [scalar, h]

theorem updateFirst_append {α : Type} {p : α → Bool} (f : α → α)
    {l₁ : List α} (x : α) (l₂ : List α) (h : ∀ y ∈ l₁, p y = false)
    (hx : p x = true) :
    updateFirst p f (l₁ ++ x :: l₂) = l₁ ++ f x :: l₂ := by
  induction l₁ with
  | nil => simp [updateFirst, hx]
  | cons a as ih =>
    have ha : p a = false := h a (List.mem_cons_self a as)
    simp [updateFirst, ha]
    exact ih (fun y hy => h y (List.mem_cons_of_mem a hy))

theorem deleteFirst_append {α : Type} {p : α → Bool} {l₁ : List α} (x : α)
    (l₂ : List α) (h : ∀ y ∈ l₁, p y = false) (hx : p x = true) :
    deleteFirst p (l₁ ++ x :: l₂) = l₁ ++ l₂ := by
  induction l₁ with
  | nil => simp [deleteFirst, hx]
  | cons a as ih =>
    have ha : p a = false := h a (List.mem_cons_self a as)
    simp [deleteFirst, ha]
    exact ih (fun y hy => h y (List.mem_cons_of_mem a hy))

theorem mem_updateFirst {α : Type} {p : α → Bool} {f : α → α} {l : List α}
    {x : α} (h : x ∈ updateFirst p f l) :
    x ∈ l ∨ ∃ y ∈ l, p y = true ∧ x = f y := by
  induction l with
  | nil => simp [updateFirst] at h
  | cons a as ih =>
    by_cases hpa : p a = true
    · simp [updateFirst, hpa] at h
      rcases h with rfl | h
      · exact Or.inr ⟨a, List.mem_cons_self a as, hpa, rfl⟩
      · exact Or.inl (List.mem_cons_of_mem a h)
    · simp only [updateFirst, hpa, if_neg, Bool.not_eq_true] at h
      simp only [List.mem_cons] at h
      rcases h with rfl | h
      · exact Or.inl (List.mem_cons_self x as)
      · rcases ih h with h | ⟨y, hy, h1, h2⟩
        · exact Or.inl (List.mem_cons_of_mem a h)
        · exact Or.inr ⟨y, List.mem_cons_of_mem a hy, h1, h2⟩

theorem mem_deleteFirst {α : Type} {p : α → Bool} {l : List α} {x : α}
    (h : x ∈ deleteFirst p l) : x ∈ l := by
  induction l with
  | nil => simp [deleteFirst] at h
  | cons a as ih =>
    by_cases hpa : p a = true
    · simp [deleteFirst, hpa] at h
      exact List.mem_cons_of_mem a h
    · simp only [deleteFirst, hpa, if_neg, Bool.not_eq_true] at h
      simp only [List.mem_cons] at h
      rcases h with rfl | h
      · exact List.mem_cons_self x as
      · exact List.mem_cons_of_mem a (ih h)

/-! ### Projection and conversion lemmas -/

theorem HistoryORM.to_entity_history_id (r : HistoryORM) :
    r.to_entity.history_id = r.history_id := rfl

theorem HistoryORM.to_entity_wallet_id (r : HistoryORM) :
    r.to_entity.wallet_id = r.wallet_id := rfl

theorem HistoryORM.to_entity_amount (r : HistoryORM) :
    r.to_entity.amount = r.amount := rfl

theorem WalletORM.to_entity_keeps_id (r : WalletORM) (db : DB) :
    (r.to_entity db).wallet_id = r.wallet_id := rfl

theorem HistoryORM.update_to_entity (r : HistoryORM) (h : History) :
    (r.update h).to_entity = { h with history_id := r.history_id } := rfl

theorem HistoryORM.update_history_id (r : HistoryORM) (h : History) :
    (r.update h).history_id = r.history_id := rfl

theorem HistoryORM.update_wallet_id (r : HistoryORM) (h : History) :
    (r.update h).wallet_id = h.wallet_id := rfl

theorem HistoryORM.update_self (r : HistoryORM) : r.update r.to_entity = r :=
  rfl

theorem WalletORM.update_keeps_id (r : WalletORM) (w : Wallet) :
    (r.update w).wallet_id = r.wallet_id := rfl

/-! ### Inversion lemmas for the repository reads -/

theorem get_by_id_eq_some {db : DB} {wallet_id : Nat} {w : Wallet}
    (h : WalletRepository.get_by_id db wallet_id = some w) :
    ∃ r, scalar (fun r => r.wallet_id == wallet_id) db.wallets = some r ∧
      w = r.to_entity db ∧ r.wallet_id = wallet_id := by
  unfold WalletRepository.get_by_id at h
  cases hs : scalar (fun r => r.wallet_id == wallet_id) db.wallets with
  | none => rw [hs] at h; exact absurd h (by simp)
  | some r =>
    rw [hs] at h
    have hr := (scalar_eq_some hs).1
    simp only [beq_iff_eq] at hr
    exact ⟨r, rfl, by simpa using h.symm, hr⟩

theorem get_by_id_eq_none {db : DB} {wallet_id : Nat}
    (h : WalletRepository.get_by_id db wallet_id = none) :
    scalar (fun r => r.wallet_id == wallet_id) db.wallets = none := by
  unfold WalletRepository.get_by_id at h
  cases hs : scalar (fun r => r.wallet_id == wallet_id) db.wallets with
  | none => rfl
  | some r => rw [hs] at h; exact absurd h (by simp)

theorem get_history_by_id_eq_some {db : DB} {wallet_id history_id : Nat}
    {h : History}
    (hh : WalletRepository.get_history_by_id db wallet_id history_id =
      some h) :
    ∃ r, scalar (fun r => r.wallet_id == wallet_id &&
        r.history_id == history_id) db.histories = some r ∧
      h = r.to_entity ∧ r.wallet_id = wallet_id ∧
      r.history_id = history_id ∧ r ∈ db.histories := by
  unfold WalletRepository.get_history_by_id at hh
  cases hs : scalar (fun r => r.wallet_id == wallet_id &&
      r.history_id == history_id) db.histories with
  | none => rw [hs] at hh; exact absurd hh (by simp)
  | some r =>
    rw [hs] at hh
    have hr := scalar_eq_some hs
    have hp := hr.1
    simp only [Bool.and_eq_true, beq_iff_eq] at hp
    exact ⟨r, rfl, by simpa using hh.symm, hp.1, hp.2, hr.2⟩

theorem get_history_by_id_eq_none {db : DB} {wallet_id history_id : Nat}
    (h : WalletRepository.get_history_by_id db wallet_id history_id = none) :
    scalar (fun r => r.wallet_id == wallet_id &&
      r.history_id == history_id) db.histories = none := by
  unfold WalletRepository.get_history_by_id at h
  cases hs : scalar (fun r => r.wallet_id == wallet_id &&
      r.history_id == history_id) db.histories with
  | none => rfl
  | some r => rw [hs] at h; exact absurd h (by simp)

theorem get_history_by_id_of_scalar {db : DB} {wallet_id history_id : Nat}
    {r : HistoryORM}
    (hs : scalar (fun r => r.wallet_id == wallet_id &&
      r.history_id == history_id) db.histories = some r) :
    WalletRepository.get_history_by_id db wallet_id history_id =
      some r.to_entity := by
  unfold WalletRepository.get_history_by_id
  rw [hs]

theorem get_history_by_id_of_scalar_none {db : DB} {wallet_id history_id : Nat}
    (hs : scalar (fun r => r.wallet_id == wallet_id &&
      r.history_id == history_id) db.histories = none) :
    WalletRepository.get_history_by_id db wallet_id history_id = none := by
  unfold WalletRepository.get_history_by_id
  rw [hs]

/-! ### Uniqueness transfer along the first-match decomposition -/

theorem pairwise_ids_decomp {l₁ l₂ : List HistoryORM} {r : HistoryORM}
    (hpw : (l₁ ++ r :: l₂).Pairwise (fun a b => a.history_id ≠ b.history_id)) :
    ∀ y, (y ∈ l₁ ∨ y ∈ l₂) → y.history_id ≠ r.history_id := by
  rw [List.pairwise_append] at hpw
  obtain ⟨_, hpw₂, hcross⟩ := hpw
  rw [List.pairwise_cons] at hpw₂
  intro y hy
  rcases hy with hy | hy
  · exact hcross y hy r (List.mem_cons_self r l₂)
  · exact (hpw₂.1 y hy).symm

theorem scalar_unique_decomp {l₁ l₂ : List HistoryORM} {u : HistoryORM}
    {wallet_id history_id : Nat}
    (hne : ∀ y, (y ∈ l₁ ∨ y ∈ l₂) → y.history_id ≠ history_id)
    (hu : u.history_id = history_id) :
    scalar (fun x => x.wallet_id == wallet_id && x.history_id == history_id)
        (l₁ ++ u :: l₂) =
      if u.wallet_id == wallet_id then some u else none := by
  rw [scalar_append_of_left_none]
  · by_cases hw : (u.wallet_id == wallet_id) = true
    · rw [scalar_cons_of_pos]
      · simp [hw]
      · simp [hw, hu]
    · rw [Bool.not_eq_true] at hw
      rw [scalar_cons_of_neg]
      · rw [scalar_eq_none.mpr, if_neg (by simp [hw])]
        intro y hy
        simp [hne y (Or.inr hy)]
      · simp [hw]
  · intro y hy
    simp [hne y (Or.inl hy)]

/-! ### Evaluation lemmas for the repository writes -/

theorem filter_eq_nil_of {α : Type} {p : α → Bool} {l : List α}
    (h : ∀ y ∈ l, p y = false) : l.filter p = [] := by
  induction l with
  | nil => rfl
  | cons a as ih =>
    rw [List.filter_cons,
      if_neg (by simp [h a (List.mem_cons_self a as)])]
    exact ih (fun y hy => h y (List.mem_cons_of_mem a hy))

theorem mem_deleteFirst_of_not {α : Type} {p : α → Bool} {l : List α} {x : α}
    (hx : x ∈ l) (hp : p x = false) : x ∈ deleteFirst p l := by
  induction l with
  | nil => cases hx
  | cons a as ih =>
    by_cases hpa : p a = true
    · rcases List.mem_cons.mp hx with rfl | hx2
      · rw [hp] at hpa; cases hpa
      · simpa [deleteFirst, hpa] using hx2
    · rw [Bool.not_eq_true] at hpa
      rcases List.mem_cons.mp hx with rfl | hx2
      · simp [deleteFirst, hpa]
      · have hstep : deleteFirst p (a :: as) = a :: deleteFirst p as := by
          simp [deleteFirst, hpa]
        rw [hstep]
        exact List.mem_cons_of_mem a (ih hx2)

theorem updateFirst_key_surj {α : Type} (key : α → Nat) {p : α → Bool}
    {f : α → α} (hf : ∀ y, key (f y) = key y) {l : List α} {x : α}
    (hx : x ∈ l) : ∃ x2 ∈ updateFirst p f l, key x2 = key x := by
  induction l with
  | nil => cases hx
  | cons a as ih =>
    by_cases hpa : p a = true
    · rcases List.mem_cons.mp hx with rfl | hx2
      · exact ⟨f x, by simp [updateFirst, hpa], hf x⟩
      · exact ⟨x, by simp [updateFirst, hpa, hx2], rfl⟩
    · rw [Bool.not_eq_true] at hpa
      rcases List.mem_cons.mp hx with rfl | hx2
      · exact ⟨x, by simp [updateFirst, hpa], rfl⟩
      · obtain ⟨x2, hmem, hk⟩ := ih hx2
        have hstep : updateFirst p f (a :: as) = a :: updateFirst p f as := by
          simp [updateFirst, hpa]
        exact ⟨x2, hstep ▸ List.mem_cons_of_mem a hmem, hk⟩

theorem scalar_updateFirst_self {α : Type} {p : α → Bool} {f : α → α}
    {l : List α} {x : α} (hscal : scalar p l = some x)
    (hfx : p (f x) = true) :
    scalar p (updateFirst p f l) = some (f x) := by
  obtain ⟨l₁, l₂, rfl, h1, hx⟩ := scalar_decomp hscal
  rw [updateFirst_append f x l₂ h1 hx, scalar_append_of_left_none _ h1,
    scalar_cons_of_pos _ hfx]

theorem update_found {db : DB} {w : Wallet} {row : WalletORM}
    (hscal : scalar (fun r => r.wallet_id == w.wallet_id) db.wallets =
      some row) :
    WalletRepository.update db w =
      (Except.ok ((row.update w).to_entity
        { db with
          wallets := updateFirst (fun r => r.wallet_id == w.wallet_id)
            (fun r => r.update w) db.wallets }),
       { db with
         wallets := updateFirst (fun r => r.wallet_id == w.wallet_id)
           (fun r => r.update w) db.wallets }) := by
  unfold WalletRepository.update
  rw [hscal]

theorem update_history_run {db : DB} {wallet_id : Nat} {h : History}
    {r : HistoryORM}
    (hscal : scalar (fun x => x.wallet_id == wallet_id &&
      x.history_id == h.history_id) db.histories = some r)
    (hpos : ¬ h.amount ≤ 0) :
    WalletRepository.update_history db wallet_id h =
      (Except.ok ((r.update h).to_entity),
       { db with
         histories := updateFirst
           (fun x => x.wallet_id == wallet_id &&
             x.history_id == h.history_id)
           (fun x => x.update h) db.histories }) := by
  unfold WalletRepository.update_history
  simp only [hscal]
  rw [if_neg hpos]

theorem update_history_check_violation {db : DB} {wallet_id : Nat}
    {h : History} {r : HistoryORM}
    (hscal : scalar (fun x => x.wallet_id == wallet_id &&
      x.history_id == h.history_id) db.histories = some r)
    (hneg : h.amount ≤ 0) :
    WalletRepository.update_history db wallet_id h =
      (Except.error AppError.integrityError, db) := by
  unfold WalletRepository.update_history
  simp only [hscal]
  rw [if_pos hneg]

theorem add_history_run {db : DB} {wid : Nat} {wall : WalletORM} {n : String}
    {a : Int} {t : HistoryType} {hat : Int}
    (hs : scalar (fun r => r.wallet_id == wid) db.wallets = some wall)
    (hpos : ¬ a ≤ 0) :
    WalletRepository.add_history db wid n a t hat =
      (Except.ok (HistoryORM.to_entity
        { history_id := db.next_history_id, name := n, amount := a,
          type := t, wallet_id := wall.wallet_id, history_at := hat }),
       { db with
         histories := db.histories ++
           [{ history_id := db.next_history_id, name := n, amount := a,
              type := t, wallet_id := wall.wallet_id, history_at := hat }]
         next_history_id := db.next_history_id + 1 }) := by
  unfold WalletRepository.add_history
  simp only [hs]
  rw [if_neg hpos]

theorem get_after_update_decomp {db : DB} {l₁ l₂ : List HistoryORM}
    {u : HistoryORM} (wid : Nat) {hid : Nat}
    (hdb : db.histories = l₁ ++ u :: l₂)
    (hne : ∀ y, (y ∈ l₁ ∨ y ∈ l₂) → y.history_id ≠ hid)
    (hu : u.history_id = hid) :
    WalletRepository.get_history_by_id db wid hid =
      if u.wallet_id == wid then some u.to_entity else none := by
  unfold WalletRepository.get_history_by_id
  rw [hdb, scalar_unique_decomp hne hu]
  by_cases hw : (u.wallet_id == wid) = true
  · simp [hw]
  · rw [Bool.not_eq_true] at hw
    simp [hw]

/-! ### A small concrete database for the witness theorems -/

/-- Two wallets; two histories, both owned by wallet 1. -/
def exDB : DB :=
  { wallets := [{ wallet_id := 1, name := "a" },
                { wallet_id := 2, name := "b" }]
    histories :=
      [{ history_id := 10, name := "s", amount := 5000,
         type := HistoryType.INCOME, wallet_id := 1, history_at := 100 },
       { history_id := 11, name := "r", amount := 1200,
         type := HistoryType.OUTCOME, wallet_id := 1, history_at := 200 }]
    next_wallet_id := 3
    next_history_id := 12 }

/-- The entity of history row 10 of `exDB`. -/
def exH10 : History :=
  { history_id := 10, name := "s", amount := 5000,
    type := HistoryType.INCOME, history_at := 100, wallet_id := 1 }

/-! ### The claims -/

theorem balance_split (l : List History) :
    (l.map (fun h =>
      if h.type = HistoryType.INCOME then h.amount else -h.amount)).sum =
    ((l.filter (fun h => h.type == HistoryType.INCOME)).map
        History.amount).sum -
    ((l.filter (fun h => h.type == HistoryType.OUTCOME)).map
        History.amount).sum := by
  induction l with
  | nil => simp
  | cons h hs ih =>
    cases ht : h.type with
    | INCOME =>
      simp only [List.map_cons, List.sum_cons, List.filter_cons, ht, ih]
      simp
      omega
    | OUTCOME =>
      simp only [List.map_cons, List.sum_cons, List.filter_cons, ht, ih]
      simp
      omega

/-- Claim C4: for every wallet, `balance` equals the sum of the amounts of
its INCOME histories minus the sum of the amounts of its OUTCOME histories;
histories [(INCOME,100),(OUTCOME,30)] give balance 70, an empty history list
gives balance 0, and the balance may be negative. -/
theorem wallet_balance_spec :
    (∀ w : Wallet, w.balance =
      ((w.histories.filter (fun h => h.type == HistoryType.INCOME)).map
          History.amount).sum -
      ((w.histories.filter (fun h => h.type == HistoryType.OUTCOME)).map
          History.amount).sum) ∧
    Wallet.balance
      { wallet_id := 1, name := "g",
        histories :=
          [{ history_id := 1, name := "i", amount := 100,
             type := HistoryType.INCOME, history_at := 1, wallet_id := 1 },
           { history_id := 2, name := "o", amount := 30,
             type := HistoryType.OUTCOME, history_at := 2,
             wallet_id := 1 }] } = 70 ∧
    Wallet.balance { wallet_id := 1, name := "g", histories := [] } = 0 ∧
    Wallet.balance
      { wallet_id := 2, name := "b",
        histories :=
          [{ history_id := 3, name := "r", amount := 1200,
             type := HistoryType.OUTCOME, history_at := 3,
             wallet_id := 2 }] } < 0 :=
  ⟨fun w => balance_split w.histories, by decide, by decide, by decide⟩

/-- In the intended model (session handling repaired): moving a history
that exists under the source wallet to a destination wallet id that
names no wallet fails with NotFound for resource
"wallet" (the code reports the source id) and leaves the database — in
particular the history under the source wallet — completely unchanged: the
failure happens before any write is applied. -/
theorem moveHistory_dest_missing_spec (db : DB)
    (wallet_id history_id destination_id : Nat) (h : History)
    (hH : WalletRepository.get_history_by_id db wallet_id history_id =
      some h)
    (hNo : WalletRepository.get_by_id db destination_id = none) :
    MoveHistory.execute db wallet_id history_id destination_id =
      (Except.error (AppError.notFound "wallet" wallet_id), db) ∧
    WalletRepository.get_history_by_id
      (MoveHistory.execute db wallet_id history_id destination_id).2
      wallet_id history_id = some h := by
  have h1 : MoveHistory.execute db wallet_id history_id destination_id =
      (Except.error (AppError.notFound "wallet" wallet_id), db) := by
    unfold MoveHistory.execute
    simp only [hH, hNo]
  exact ⟨h1, by rw [h1]; exact hH⟩

/-- The previous theorem instantiated on the concrete database: wallet 99
does not exist. -/
theorem moveHistory_dest_missing_spec_witness :
    MoveHistory.execute exDB 1 10 99 =
      (Except.error (AppError.notFound "wallet" 1), exDB) ∧
    WalletRepository.get_history_by_id
      (MoveHistory.execute exDB 1 10 99).2 1 10 = some exH10 :=
  moveHistory_dest_missing_spec exDB 1 10 99 exH10 (by decide) (by decide)

/-- Claim C9: when the entity they expect to exist is absent, the repository
methods add_history, update and update_history fail with the generic
AppException (the 500-class storage failure), never the domain NotFound;
the client-facing NotFound is raised at the use-case layer after its own
existence check. -/
theorem repo_defensive_failure_spec :
    (∀ (db : DB) (wallet_id : Nat) (name : String) (amount : Int)
        (type_ : HistoryType) (history_at : Int),
      WalletRepository.get_by_id db wallet_id = none →
        WalletRepository.add_history db wallet_id name amount type_
          history_at = (Except.error AppError.appException, db)) ∧
    (∀ (db : DB) (w : Wallet),
      WalletRepository.get_by_id db w.wallet_id = none →
        WalletRepository.update db w =
          (Except.error AppError.appException, db)) ∧
    (∀ (db : DB) (wallet_id : Nat) (h : History),
      WalletRepository.get_history_by_id db wallet_id h.history_id = none →
        WalletRepository.update_history db wallet_id h =
          (Except.error AppError.appException, db)) ∧
    (∀ (db : DB) (wallet_id history_id : Nat),
      WalletRepository.get_history_by_id db wallet_id history_id = none →
        GetHistory.execute db wallet_id history_id =
          Except.error (AppError.notFound "history" history_id)) := by
  refine ⟨?_, ?_, ?_, ?_⟩
  · intro db wid n a t hat hno
    unfold WalletRepository.add_history
    rw [get_by_id_eq_none hno]
  · intro db w hno
    unfold WalletRepository.update
    rw [get_by_id_eq_none hno]
  · intro db wid h hno
    unfold WalletRepository.update_history
    rw [get_history_by_id_eq_none hno]
  · intro db wid hid hno
    unfold GetHistory.execute
    rw [hno]

/-- Witness for C9 on the concrete database: wallet 99 does not exist, and
history 10 does not exist under wallet 2. -/
theorem repo_defensive_failure_spec_witness :
    WalletRepository.add_history exDB 99 "x" 5 HistoryType.INCOME 0 =
      (Except.error AppError.appException, exDB) ∧
    WalletRepository.update_history exDB 2 exH10 =
      (Except.error AppError.appException, exDB) ∧
    GetHistory.execute exDB 2 10 =
      Except.error (AppError.notFound "history" 10) :=
  ⟨repo_defensive_failure_spec.1 exDB 99 "x" 5 HistoryType.INCOME 0
      (by decide),
   repo_defensive_failure_spec.2.2.1 exDB 2 exH10 (by decide),
   repo_defensive_failure_spec.2.2.2 exDB 2 10 (by decide)⟩

theorem add_run (db : DB) (name : String) :
    WalletRepository.add db name =
      (WalletORM.to_entity { wallet_id := db.next_wallet_id, name := name }
        { db with
          wallets := db.wallets ++
            [{ wallet_id := db.next_wallet_id, name := name }]
          next_wallet_id := db.next_wallet_id + 1 },
       { db with
         wallets := db.wallets ++
           [{ wallet_id := db.next_wallet_id, name := name }]
         next_wallet_id := db.next_wallet_id + 1 }) := rfl

/-- In the intended model (entity conversion repaired): for a wallet value
whose id names an existing stored wallet,
update overwrites only that wallet's name and leaves its history set
untouched: the histories table is unchanged, any histories carried on the
input are silently ignored (the call's result does not depend on them), and
the wallet read back afterwards differs from the old one only in the name. -/
theorem wallet_update_name_only_spec (db : DB) (w old : Wallet)
    (hOld : WalletRepository.get_by_id db w.wallet_id = some old) :
    (WalletRepository.update db w).2.histories = db.histories ∧
    WalletRepository.update db w =
      WalletRepository.update db { w with histories := [] } ∧
    (WalletRepository.update db w).1 =
      Except.ok { old with name := w.name } ∧
    WalletRepository.get_by_id (WalletRepository.update db w).2 w.wallet_id
      = some { old with name := w.name } := by
  obtain ⟨row, hscal, he, hrow⟩ := get_by_id_eq_some hOld
  have hrun := update_found hscal
  refine ⟨?_, ?_, ?_, ?_⟩
  · rw [hrun]
  · rfl
  · rw [hrun]
    subst he
    rfl
  · rw [hrun]
    have hget : scalar (fun r => r.wallet_id == w.wallet_id)
        (updateFirst (fun r => r.wallet_id == w.wallet_id)
          (fun r => r.update w) db.wallets) = some (row.update w) :=
      scalar_updateFirst_self hscal (scalar_eq_some hscal).1
    unfold WalletRepository.get_by_id
    simp only [hget]
    subst he
    rfl

/-- The previous theorem instantiated: renaming wallet 1 of the concrete
database. -/
theorem wallet_update_name_only_spec_witness :
    (WalletRepository.update exDB
      { wallet_id := 1, name := "c", histories := [] }).2.histories =
      exDB.histories ∧
    WalletRepository.update exDB
      { wallet_id := 1, name := "c", histories := [] } =
      WalletRepository.update exDB
        { wallet_id := 1, name := "c", histories := [] } ∧
    (WalletRepository.update exDB
      { wallet_id := 1, name := "c", histories := [] }).1 =
      Except.ok { wallet_id := 1, name := "c", histories :=
        [{ history_id := 11, name := "r", amount := 1200,
           type := HistoryType.OUTCOME, history_at := 200, wallet_id := 1 },
         { history_id := 10, name := "s", amount := 5000,
           type := HistoryType.INCOME, history_at := 100,
           wallet_id := 1 }] } ∧
    WalletRepository.get_by_id
      (WalletRepository.update exDB
        { wallet_id := 1, name := "c", histories := [] }).2 1 =
      some { wallet_id := 1, name := "c", histories :=
        [{ history_id := 11, name := "r", amount := 1200,
           type := HistoryType.OUTCOME, history_at := 200, wallet_id := 1 },
         { history_id := 10, name := "s", amount := 5000,
           type := HistoryType.INCOME, history_at := 100,
           wallet_id := 1 }] } :=
  wallet_update_name_only_spec exDB
    { wallet_id := 1, name := "c", histories := [] }
    { wallet_id := 1, name := "a", histories :=
      [{ history_id := 11, name := "r", amount := 1200,
         type := HistoryType.OUTCOME, history_at := 200, wallet_id := 1 },
       { history_id := 10, name := "s", amount := 5000,
         type := HistoryType.INCOME, history_at := 100, wallet_id := 1 }] }
    (by decide)

/-- In the intended model (constructor keyword and entity conversion
repaired): after `add(name)` returns a wallet, a `get_by_id` on its id in
the same transaction returns a wallet with the given name and an empty
history set (the returned wallet itself also carries the name and no
histories). -/
theorem wallet_add_get_spec (db : DB) (name : String) (hWF : WF db) :
    (WalletRepository.add db name).1.name = name ∧
    (WalletRepository.add db name).1.histories = [] ∧
    WalletRepository.get_by_id (WalletRepository.add db name).2
        (WalletRepository.add db name).1.wallet_id =
      some { wallet_id := (WalletRepository.add db name).1.wallet_id,
             name := name, histories := [] } := by
  have href : RefIntegrity db := hWF.2.2.1
  have hfreshW : ∀ y ∈ db.wallets, y.wallet_id < db.next_wallet_id :=
    hWF.2.2.2.2.1
  have hforall : ∀ y ∈ db.histories,
      (y.wallet_id == db.next_wallet_id) = false := by
    intro y hy
    obtain ⟨w2, hw2, heq⟩ := href y hy
    exact beq_eq_false_iff_ne.mpr
      (by rw [heq]; exact Nat.ne_of_lt (hfreshW w2 hw2))
  have hempty : load_histories
      { db with
        wallets := db.wallets ++
          [{ wallet_id := db.next_wallet_id, name := name }]
        next_wallet_id := db.next_wallet_id + 1 }
      db.next_wallet_id = [] := by
    show sortDesc (db.histories.filter
      (fun r => r.wallet_id == db.next_wallet_id)) = []
    rw [filter_eq_nil_of hforall]
    rfl
  have hsc : scalar (fun r => r.wallet_id == db.next_wallet_id)
      (db.wallets ++ [{ wallet_id := db.next_wallet_id, name := name }]) =
      some { wallet_id := db.next_wallet_id, name := name } := by
    rw [scalar_append_of_left_none _
      (fun y hy => beq_eq_false_iff_ne.mpr
        (Nat.ne_of_lt (hfreshW y hy)))]
    exact scalar_cons_of_pos _ (by simp)
  refine ⟨rfl, ?_, ?_⟩
  · simp only [add_run, WalletORM.to_entity]
    rw [hempty]
    rfl
  · simp only [add_run, WalletORM.to_entity]
    unfold WalletRepository.get_by_id
    simp only [hsc, WalletORM.to_entity]
    rw [hempty]
    rfl

/-- The previous theorem instantiated on the concrete database. -/
theorem wallet_add_get_spec_witness :
    (WalletRepository.add exDB "c").1.name = "c" ∧
    (WalletRepository.add exDB "c").1.histories = [] ∧
    WalletRepository.get_by_id (WalletRepository.add exDB "c").2
        (WalletRepository.add exDB "c").1.wallet_id =
      some { wallet_id := (WalletRepository.add exDB "c").1.wallet_id,
             name := "c", histories := [] } :=
  wallet_add_get_spec exDB "c" (by decide)

/-- In the intended model (session handling repaired): history deletion is
idempotent: a DeleteHistory call on an
already-absent history succeeds silently and leaves the state unchanged;
after a successful deletion the history is gone, so a second call (in
particular one right after a successful first deletion) is a silent no-op. -/
theorem deleteHistory_idempotent_spec (db : DB) (wallet_id history_id : Nat)
    (hWF : WF db) :
    (WalletRepository.get_history_by_id db wallet_id history_id = none →
      DeleteHistory.excute db wallet_id history_id = db) ∧
    WalletRepository.get_history_by_id
      (DeleteHistory.excute db wallet_id history_id) wallet_id history_id =
      none ∧
    DeleteHistory.excute (DeleteHistory.excute db wallet_id history_id)
        wallet_id history_id =
      DeleteHistory.excute db wallet_id history_id := by
  have hUnique : HistoryIdsUnique db := hWF.2.1
  cases hs : scalar (fun r => r.wallet_id == wallet_id &&
      r.history_id == history_id) db.histories with
  | none =>
    have hget := get_history_by_id_of_scalar_none hs
    have hex : DeleteHistory.excute db wallet_id history_id = db := by
      unfold DeleteHistory.excute
      rw [hget]
    refine ⟨fun _ => hex, ?_, ?_⟩
    · rw [hex]; exact hget
    · rw [hex]; exact hex
  | some r =>
    have hget := get_history_by_id_of_scalar hs
    have hp := (scalar_eq_some hs).1
    simp only [Bool.and_eq_true, beq_iff_eq] at hp
    obtain ⟨hrw, hrh⟩ := hp
    obtain ⟨l₁, l₂, hdec, hfail, hptrue⟩ := scalar_decomp hs
    have hdel : deleteFirst (fun x => x.wallet_id == wallet_id &&
        x.history_id == history_id) db.histories = l₁ ++ l₂ := by
      rw [hdec]
      exact deleteFirst_append r l₂ hfail hptrue
    have hex : DeleteHistory.excute db wallet_id history_id =
        { db with histories := l₁ ++ l₂ } := by
      unfold DeleteHistory.excute
      rw [hget]
      unfold WalletRepository.delete_history
      simp only [HistoryORM.to_entity_wallet_id,
        HistoryORM.to_entity_history_id, hrw, hrh, hs, hdel]
    have hU2 : (l₁ ++ r :: l₂).Pairwise
        (fun a b => a.history_id ≠ b.history_id) := by
      have h2 := hUnique
      unfold HistoryIdsUnique at h2
      rw [hdec] at h2
      exact h2
    have hnone2 : WalletRepository.get_history_by_id
        { db with histories := l₁ ++ l₂ } wallet_id history_id = none := by
      apply get_history_by_id_of_scalar_none
      show scalar (fun x => x.wallet_id == wallet_id &&
        x.history_id == history_id) (l₁ ++ l₂) = none
      apply scalar_eq_none.mpr
      intro y hy
      have hyne : y.history_id ≠ history_id := by
        rw [← hrh]
        apply pairwise_ids_decomp hU2 y
        rcases List.mem_append.mp hy with h | h
        exacts [Or.inl h, Or.inr h]
      simp [beq_eq_false_iff_ne.mpr hyne]
    refine ⟨?_, ?_, ?_⟩
    · intro hcontra
      rw [hget] at hcontra
      exact absurd hcontra (by simp)
    · rw [hex]; exact hnone2
    · rw [hex]
      unfold DeleteHistory.excute
      rw [hnone2]

/-- The previous theorem instantiated: deleting the absent history
(wallet 2, history 10) of the concrete database. -/
theorem deleteHistory_idempotent_spec_witness :
    (WalletRepository.get_history_by_id exDB 2 10 = none →
      DeleteHistory.excute exDB 2 10 = exDB) ∧
    WalletRepository.get_history_by_id
      (DeleteHistory.excute exDB 2 10) 2 10 = none ∧
    DeleteHistory.excute (DeleteHistory.excute exDB 2 10) 2 10 =
      DeleteHistory.excute exDB 2 10 :=
  deleteHistory_idempotent_spec exDB 2 10 (by decide)


theorem get_after_update_first {db : DB} {l₁ l₂ : List HistoryORM}
    {u : HistoryORM} {wid hid : Nat}
    (hdb : db.histories = l₁ ++ u :: l₂)
    (hfail : ∀ y ∈ l₁, (y.wallet_id == wid && y.history_id == hid) = false)
    (hu : (u.wallet_id == wid && u.history_id == hid) = true) :
    WalletRepository.get_history_by_id db wid hid = some u.to_entity := by
  unfold WalletRepository.get_history_by_id
  rw [hdb, scalar_append_of_left_none _ hfail]
  simp [scalar, hu]

/-- In the intended model (session handling and entity conversion
repaired): a successful UpdateHistory never changes the owning wallet:
the history is loaded scoped to the wallet id and the use case overwrites
name, amount, type and history_at but not wallet_id, so the returned
entity's wallet_id equals the wallet id argument and the history read back
afterwards under that wallet is exactly the returned entity. -/
theorem updateHistory_owner_fixed_spec (db : DB)
    (wallet_id history_id : Nat) (name : String) (amount : Int)
    (type_ : HistoryType) (history_at : Int) (h : History) (db' : DB)
    (hOk : UpdateHistory.excute db wallet_id history_id name amount type_
      history_at = (Except.ok h, db')) :
    h.wallet_id = wallet_id ∧
    WalletRepository.get_history_by_id db' wallet_id history_id = some h := by
  cases hs : scalar (fun r => r.wallet_id == wallet_id &&
      r.history_id == history_id) db.histories with
  | none =>
    have hget := get_history_by_id_of_scalar_none hs
    unfold UpdateHistory.excute at hOk
    rw [hget] at hOk
    exact absurd hOk (by simp)
  | some r =>
    have hget := get_history_by_id_of_scalar hs
    have hp := (scalar_eq_some hs).1
    simp only [Bool.and_eq_true, beq_iff_eq] at hp
    obtain ⟨hrw, hrh⟩ := hp
    have hs' : scalar (fun x => x.wallet_id == wallet_id &&
        x.history_id == r.history_id) db.histories = some r := by
      rw [hrh]; exact hs
    by_cases hneg : amount ≤ 0
    · have hviol := update_history_check_violation
        (h := (⟨r.history_id, name, amount, type_, history_at,
          r.wallet_id⟩ : History)) hs' hneg
      have hexec : UpdateHistory.excute db wallet_id history_id name amount
          type_ history_at = (Except.error AppError.integrityError, db) := by
        unfold UpdateHistory.excute
        rw [hget]
        show ((WalletRepository.update_history db wallet_id
            ⟨r.history_id, name, amount, type_, history_at,
              r.wallet_id⟩).1.map (fun _ => (⟨r.history_id, name, amount,
            type_, history_at, r.wallet_id⟩ : History)),
          (WalletRepository.update_history db wallet_id
            ⟨r.history_id, name, amount, type_, history_at,
              r.wallet_id⟩).2) = _
        rw [hviol]
        rfl
      have hcomb := hexec.symm.trans hOk
      exact absurd hcomb (by simp)
    · have hrun := update_history_run
        (h := (⟨r.history_id, name, amount, type_, history_at,
          r.wallet_id⟩ : History)) hs' hneg
      have hexec : UpdateHistory.excute db wallet_id history_id name amount
          type_ history_at =
          (Except.ok (⟨r.history_id, name, amount, type_, history_at,
            r.wallet_id⟩ : History),
           { db with
             histories := updateFirst
               (fun x => x.wallet_id == wallet_id &&
                 x.history_id == r.history_id)
               (fun x => x.update ⟨r.history_id, name, amount, type_,
                 history_at, r.wallet_id⟩) db.histories }) := by
        unfold UpdateHistory.excute
        rw [hget]
        show ((WalletRepository.update_history db wallet_id
            ⟨r.history_id, name, amount, type_, history_at,
              r.wallet_id⟩).1.map (fun _ => (⟨r.history_id, name, amount,
            type_, history_at, r.wallet_id⟩ : History)),
          (WalletRepository.update_history db wallet_id
            ⟨r.history_id, name, amount, type_, history_at,
              r.wallet_id⟩).2) = _
        rw [hrun]
        rfl
      have hcomb := hexec.symm.trans hOk
      rw [Prod.mk.injEq, Except.ok.injEq] at hcomb
      obtain ⟨heq, hdb⟩ := hcomb
      subst heq
      subst hdb
      refine ⟨hrw, ?_⟩
      obtain ⟨l₁, l₂, hdec, hfail, hptrue⟩ := scalar_decomp hs'
      have hdb2 : ({ db with
          histories := updateFirst
            (fun x => x.wallet_id == wallet_id &&
              x.history_id == r.history_id)
            (fun x => x.update ⟨r.history_id, name, amount, type_,
              history_at, r.wallet_id⟩) db.histories } : DB).histories =
          l₁ ++ (r.update ⟨r.history_id, name, amount, type_, history_at,
            r.wallet_id⟩) :: l₂ := by
        show updateFirst _ _ db.histories = _
        rw [hdec]
        exact updateFirst_append _ r l₂ hfail hptrue
      have hfail2 : ∀ y ∈ l₁,
          (y.wallet_id == wallet_id && y.history_id == history_id) =
            false := by
        rw [← hrh]; exact hfail
      have hu : ((r.update ⟨r.history_id, name, amount, type_, history_at,
          r.wallet_id⟩).wallet_id == wallet_id &&
          (r.update ⟨r.history_id, name, amount, type_, history_at,
            r.wallet_id⟩).history_id == history_id) = true := by
        show (r.wallet_id == wallet_id && r.history_id == history_id) = true
        simp [hrw, hrh]
      exact get_after_update_first hdb2 hfail2 hu

/-- The previous theorem instantiated: updating history 10 of wallet 1 in
the concrete database. -/
theorem updateHistory_owner_fixed_spec_witness :
    ({ history_id := 10, name := "t", amount := 7, type :=
        HistoryType.OUTCOME, history_at := 5, wallet_id := 1 } :
      History).wallet_id = 1 ∧
    WalletRepository.get_history_by_id
      (UpdateHistory.excute exDB 1 10 "t" 7 HistoryType.OUTCOME 5).2 1 10 =
      some { history_id := 10, name := "t", amount := 7,
             type := HistoryType.OUTCOME, history_at := 5, wallet_id := 1 } :=
  updateHistory_owner_fixed_spec exDB 1 10 "t" 7 HistoryType.OUTCOME 5
    { history_id := 10, name := "t", amount := 7,
      type := HistoryType.OUTCOME, history_at := 5, wallet_id := 1 }
    (UpdateHistory.excute exDB 1 10 "t" 7 HistoryType.OUTCOME 5).2
    (by rfl)

instance : DecidablePred RefIntegrity := fun db => by
  unfold RefIntegrity
  infer_instance

instance : DecidablePred AmountsPositive := fun db => by
  unfold AmountsPositive
  infer_instance

/-- In the intended model (entity conversion repaired): a history added
under an existing wallet via add_history
carries that wallet's id and a positive amount; the amount > 0 property of
the stored table is preserved by every history-writing repository
operation; and adding with amount ≤ 0 is rejected at flush by the
CHECK (amount > 0) constraint, leaving the state unchanged. -/
theorem history_amount_positive_spec :
    (∀ (db : DB) (wid : Nat) (n : String) (a : Int) (t : HistoryType)
        (hat : Int) (h : History) (db2 : DB),
      WalletRepository.add_history db wid n a t hat = (Except.ok h, db2) →
        h.wallet_id = wid ∧ h.amount = a ∧ 0 < a) ∧
    (∀ (db : DB) (wid : Nat) (n : String) (a : Int) (t : HistoryType)
        (hat : Int),
      AmountsPositive db →
        AmountsPositive (WalletRepository.add_history db wid n a t hat).2) ∧
    (∀ (db : DB) (wid : Nat) (h : History),
      AmountsPositive db →
        AmountsPositive (WalletRepository.update_history db wid h).2) ∧
    (∀ (db : DB) (w : Wallet),
      AmountsPositive db → AmountsPositive (WalletRepository.delete db w)) ∧
    (∀ (db : DB) (wid : Nat) (h : History),
      AmountsPositive db →
        AmountsPositive (WalletRepository.delete_history db wid h)) ∧
    (∀ (db : DB) (wid : Nat) (n : String) (a : Int) (t : HistoryType)
        (hat : Int) (w : Wallet),
      WalletRepository.get_by_id db wid = some w → a ≤ 0 →
        WalletRepository.add_history db wid n a t hat =
          (Except.error AppError.integrityError, db)) := by
  refine ⟨?_, ?_, ?_, ?_, ?_, ?_⟩
  · intro db wid n a t hat h db2 hOk
    cases hsw : scalar (fun r => r.wallet_id == wid) db.wallets with
    | none =>
      have hrun0 : WalletRepository.add_history db wid n a t hat =
          (Except.error AppError.appException, db) := by
        unfold WalletRepository.add_history
        rw [hsw]
      rw [hrun0] at hOk
      exact absurd hOk (by simp)
    | some wall =>
      by_cases ha : a ≤ 0
      · have hrun0 : WalletRepository.add_history db wid n a t hat =
            (Except.error AppError.integrityError, db) := by
          unfold WalletRepository.add_history
          simp only [hsw]
          rw [if_pos ha]
        rw [hrun0] at hOk
        exact absurd hOk (by simp)
      · have hcomb := (add_history_run hsw ha).symm.trans hOk
        rw [Prod.mk.injEq, Except.ok.injEq] at hcomb
        obtain ⟨heq, _⟩ := hcomb
        subst heq
        have hww : wall.wallet_id = wid := by
          simpa using (scalar_eq_some hsw).1
        exact ⟨hww, rfl, by omega⟩
  · intro db wid n a t hat hpos
    cases hsw : scalar (fun r => r.wallet_id == wid) db.wallets with
    | none =>
      have hrun0 : WalletRepository.add_history db wid n a t hat =
          (Except.error AppError.appException, db) := by
        unfold WalletRepository.add_history
        rw [hsw]
      rw [hrun0]
      exact hpos
    | some wall =>
      by_cases ha : a ≤ 0
      · have hrun0 : WalletRepository.add_history db wid n a t hat =
            (Except.error AppError.integrityError, db) := by
          unfold WalletRepository.add_history
          simp only [hsw]
          rw [if_pos ha]
        rw [hrun0]
        exact hpos
      · rw [add_history_run hsw ha]
        unfold AmountsPositive at hpos ⊢
        intro r hr
        rcases List.mem_append.mp hr with h1 | h1
        · exact hpos r h1
        · have hr2 : r = (⟨db.next_history_id, n, a, t, wall.wallet_id,
              hat⟩ : HistoryORM) := List.mem_singleton.mp h1
          subst hr2
          show 0 < a
          omega
  · intro db wid h hpos
    cases hsh : scalar (fun x => x.wallet_id == wid &&
        x.history_id == h.history_id) db.histories with
    | none =>
      have hrun0 : WalletRepository.update_history db wid h =
          (Except.error AppError.appException, db) := by
        unfold WalletRepository.update_history
        rw [hsh]
      rw [hrun0]
      exact hpos
    | some r =>
      by_cases ha : h.amount ≤ 0
      · rw [update_history_check_violation hsh ha]
        exact hpos
      · rw [update_history_run hsh ha]
        unfold AmountsPositive at hpos ⊢
        intro r2 hr2
        rcases mem_updateFirst hr2 with hold | ⟨y, hy, hpy, hr3⟩
        · exact hpos r2 hold
        · subst hr3
          show 0 < h.amount
          omega
  · intro db w hpos
    cases hsw : scalar (fun r => r.wallet_id == w.wallet_id) db.wallets with
    | none =>
      have hrun0 : WalletRepository.delete db w = db := by
        unfold WalletRepository.delete
        rw [hsw]
      rw [hrun0]
      exact hpos
    | some row =>
      have hrun0 : WalletRepository.delete db w =
          { db with
            wallets := deleteFirst (fun r => r.wallet_id == w.wallet_id)
              db.wallets
            histories := db.histories.filter
              (fun r => !(r.wallet_id == row.wallet_id)) } := by
        unfold WalletRepository.delete
        rw [hsw]
      rw [hrun0]
      unfold AmountsPositive at hpos ⊢
      intro r hr
      exact hpos r (List.mem_filter.mp hr).1
  · intro db wid h hpos
    cases hsh : scalar (fun x => x.wallet_id == wid &&
        x.history_id == h.history_id) db.histories with
    | none =>
      have hrun0 : WalletRepository.delete_history db wid h = db := by
        unfold WalletRepository.delete_history
        rw [hsh]
      rw [hrun0]
      exact hpos
    | some r =>
      have hrun0 : WalletRepository.delete_history db wid h =
          { db with
            histories := deleteFirst (fun x => x.wallet_id == wid &&
              x.history_id == h.history_id) db.histories } := by
        unfold WalletRepository.delete_history
        rw [hsh]
      rw [hrun0]
      unfold AmountsPositive at hpos ⊢
      intro r2 hr2
      exact hpos r2 (mem_deleteFirst hr2)
  · intro db wid n a t hat w hw ha
    obtain ⟨wall, hsw, _, _⟩ := get_by_id_eq_some hw
    unfold WalletRepository.add_history
    simp only [hsw]
    rw [if_pos ha]

/-- The previous theorem instantiated: an add under wallet 1, invariant
preservation on the concrete database, and rejection of amount -3. -/
theorem history_amount_positive_spec_witness :
    (({ history_id := 12, name := "x", amount := 7,
        type := HistoryType.INCOME, history_at := 0,
        wallet_id := 1 } : History).wallet_id = 1 ∧
      ({ history_id := 12, name := "x", amount := 7,
          type := HistoryType.INCOME, history_at := 0,
          wallet_id := 1 } : History).amount = 7 ∧ (0 : Int) < 7) ∧
    AmountsPositive
      (WalletRepository.add_history exDB 1 "x" 7 HistoryType.INCOME 0).2 ∧
    WalletRepository.add_history exDB 1 "x" (-3) HistoryType.INCOME 0 =
      (Except.error AppError.integrityError, exDB) :=
  ⟨history_amount_positive_spec.1 exDB 1 "x" 7 HistoryType.INCOME 0
      { history_id := 12, name := "x", amount := 7,
        type := HistoryType.INCOME, history_at := 0, wallet_id := 1 }
      (WalletRepository.add_history exDB 1 "x" 7 HistoryType.INCOME 0).2
      (by rfl),
   history_amount_positive_spec.2.1 exDB 1 "x" 7 HistoryType.INCOME 0
      (by decide),
   history_amount_positive_spec.2.2.2.2.2 exDB 1 "x" (-3)
      HistoryType.INCOME 0
      { wallet_id := 1, name := "a", histories :=
        [{ history_id := 11, name := "r", amount := 1200,
           type := HistoryType.OUTCOME, history_at := 200, wallet_id := 1 },
         { history_id := 10, name := "s", amount := 5000,
           type := HistoryType.INCOME, history_at := 100, wallet_id := 1 }] }
      (by rfl) (by decide)⟩

theorem refint_update_history (db : DB) (wid : Nat) (h1 : History)
    (h : RefIntegrity db)
    (hok : ∃ w2 ∈ db.wallets, h1.wallet_id = w2.wallet_id) :
    RefIntegrity (WalletRepository.update_history db wid h1).2 := by
  cases hsh : scalar (fun x => x.wallet_id == wid &&
      x.history_id == h1.history_id) db.histories with
  | none =>
    have hrun0 : WalletRepository.update_history db wid h1 =
        (Except.error AppError.appException, db) := by
      unfold WalletRepository.update_history
      rw [hsh]
    rw [hrun0]
    exact h
  | some r =>
    by_cases ha : h1.amount ≤ 0
    · rw [update_history_check_violation hsh ha]
      exact h
    · rw [update_history_run hsh ha]
      unfold RefIntegrity at h ⊢
      intro r2 hr2
      rcases mem_updateFirst hr2 with hold | ⟨y, hy, hpy, hr3⟩
      · exact h r2 hold
      · subst hr3
        obtain ⟨w2, hw2, he⟩ := hok
        exact ⟨w2, hw2, he⟩

/-- In the intended model (the repaired operations): referential integrity
— every stored history's wallet_id
references an existing wallet — is preserved by the wallet repository
operations and by all four history use cases, and deleting a wallet removes
it together with every history it owns: afterwards no scoped history lookup
under that wallet succeeds, so no operation leaves an orphaned history. -/
theorem refIntegrity_invariant_spec :
    (∀ (db : DB) (n : String),
      RefIntegrity db → RefIntegrity (WalletRepository.add db n).2) ∧
    (∀ (db : DB) (w : Wallet),
      RefIntegrity db → RefIntegrity (WalletRepository.update db w).2) ∧
    (∀ (db : DB) (w : Wallet),
      RefIntegrity db → RefIntegrity (WalletRepository.delete db w)) ∧
    (∀ (db : DB) (wid : Nat) (n : String) (a : Int) (t : HistoryType)
        (hat : Int),
      RefIntegrity db →
        RefIntegrity (CreateHistory.execute db wid n a t hat).2) ∧
    (∀ (db : DB) (wid hid : Nat) (n : String) (a : Int) (t : HistoryType)
        (hat : Int),
      RefIntegrity db →
        RefIntegrity (UpdateHistory.excute db wid hid n a t hat).2) ∧
    (∀ (db : DB) (wid hid : Nat),
      RefIntegrity db → RefIntegrity (DeleteHistory.excute db wid hid)) ∧
    (∀ (db : DB) (wid hid did : Nat),
      RefIntegrity db →
        RefIntegrity (MoveHistory.execute db wid hid did).2) ∧
    (∀ (db : DB) (w : Wallet) (hid : Nat),
      RefIntegrity db →
        WalletRepository.get_history_by_id (WalletRepository.delete db w)
          w.wallet_id hid = none) := by
  refine ⟨?_, ?_, ?_, ?_, ?_, ?_, ?_, ?_⟩
  · intro db n h
    unfold RefIntegrity at h ⊢
    rw [add_run]
    intro r hr
    obtain ⟨w2, hw2, he⟩ := h r hr
    exact ⟨w2, List.mem_append_left _ hw2, he⟩
  · intro db w h
    cases hsw : scalar (fun r => r.wallet_id == w.wallet_id) db.wallets with
    | none =>
      have hrun0 : WalletRepository.update db w =
          (Except.error AppError.appException, db) := by
        unfold WalletRepository.update
        rw [hsw]
      rw [hrun0]
      exact h
    | some row =>
      rw [update_found hsw]
      unfold RefIntegrity at h ⊢
      intro r hr
      obtain ⟨w2, hw2, he⟩ := h r hr
      obtain ⟨w3, hw3, hk⟩ := updateFirst_key_surj WalletORM.wallet_id
        (p := fun r => r.wallet_id == w.wallet_id)
        (f := fun r => r.update w) (fun y => rfl) hw2
      exact ⟨w3, hw3, by rw [he, ← hk]⟩
  · intro db w h
    cases hsw : scalar (fun r => r.wallet_id == w.wallet_id) db.wallets with
    | none =>
      have hrun0 : WalletRepository.delete db w = db := by
        unfold WalletRepository.delete
        rw [hsw]
      rw [hrun0]
      exact h
    | some row =>
      have hrun0 : WalletRepository.delete db w =
          { db with
            wallets := deleteFirst (fun r => r.wallet_id == w.wallet_id)
              db.wallets
            histories := db.histories.filter
              (fun r => !(r.wallet_id == row.wallet_id)) } := by
        unfold WalletRepository.delete
        rw [hsw]
      rw [hrun0]
      unfold RefIntegrity at h ⊢
      intro r hr
      have hr2 := List.mem_filter.mp hr
      obtain ⟨w2, hw2, he⟩ := h r hr2.1
      have hroww : row.wallet_id = w.wallet_id := by
        simpa using (scalar_eq_some hsw).1
      have hrne : r.wallet_id ≠ row.wallet_id := by
        have h3 := hr2.2
        simp only [Bool.not_eq_eq_eq_not, Bool.not_true] at h3
        exact beq_eq_false_iff_ne.mp h3
      refine ⟨w2, mem_deleteFirst_of_not hw2
        (beq_eq_false_iff_ne.mpr ?_), he⟩
      rw [← he, ← hroww]
      exact hrne
  · intro db wid n a t hat h
    unfold CreateHistory.execute
    cases hgw : WalletRepository.get_by_id db wid with
    | none => exact h
    | some w2 =>
      show RefIntegrity
        (WalletRepository.add_history db w2.wallet_id n a t hat).2
      cases hsw : scalar (fun r => r.wallet_id == w2.wallet_id)
          db.wallets with
      | none =>
        have hrun0 : WalletRepository.add_history db w2.wallet_id n a t
            hat = (Except.error AppError.appException, db) := by
          unfold WalletRepository.add_history
          rw [hsw]
        rw [hrun0]
        exact h
      | some wall =>
        by_cases ha : a ≤ 0
        · have hrun0 : WalletRepository.add_history db w2.wallet_id n a t
              hat = (Except.error AppError.integrityError, db) := by
            unfold WalletRepository.add_history
            simp only [hsw]
            rw [if_pos ha]
          rw [hrun0]
          exact h
        · rw [add_history_run hsw ha]
          unfold RefIntegrity at h ⊢
          intro r hr
          rcases List.mem_append.mp hr with h1 | h1
          · exact h r h1
          · have hr2 : r = (⟨db.next_history_id, n, a, t, wall.wallet_id,
                hat⟩ : HistoryORM) := List.mem_singleton.mp h1
            subst hr2
            exact ⟨wall, (scalar_eq_some hsw).2, rfl⟩
  · intro db wid hid n a t hat h
    unfold UpdateHistory.excute
    cases hgh : WalletRepository.get_history_by_id db wid hid with
    | none => exact h
    | some h0 =>
      obtain ⟨r, hscal, he, hw2, hh2, hmem⟩ := get_history_by_id_eq_some hgh
      subst he
      exact refint_update_history db wid
        ⟨(r.to_entity).history_id, n, a, t, hat, (r.to_entity).wallet_id⟩
        h (h r hmem)
  · intro db wid hid h
    unfold DeleteHistory.excute
    cases hgh : WalletRepository.get_history_by_id db wid hid with
    | none => exact h
    | some h0 =>
      show RefIntegrity (WalletRepository.delete_history db h0.wallet_id h0)
      unfold WalletRepository.delete_history
      cases hsh : scalar (fun r => r.wallet_id == h0.wallet_id &&
          r.history_id == h0.history_id) db.histories with
      | none => exact h
      | some r =>
        unfold RefIntegrity at h ⊢
        intro r2 hr2
        exact h r2 (mem_deleteFirst hr2)
  · intro db wid hid did h
    unfold MoveHistory.execute
    cases hgh : WalletRepository.get_history_by_id db wid hid with
    | none => exact h
    | some h0 =>
      cases hgw : WalletRepository.get_by_id db did with
      | none => exact h
      | some w2 =>
        obtain ⟨rw2, hsw, hwe, hww⟩ := get_by_id_eq_some hgw
        subst hwe
        exact refint_update_history db wid
          ⟨h0.history_id, h0.name, h0.amount, h0.type, h0.history_at,
            rw2.wallet_id⟩ h ⟨rw2, (scalar_eq_some hsw).2, rfl⟩
  · intro db w hid h
    cases hsw : scalar (fun r => r.wallet_id == w.wallet_id) db.wallets with
    | none =>
      have hrun0 : WalletRepository.delete db w = db := by
        unfold WalletRepository.delete
        rw [hsw]
      rw [hrun0]
      apply get_history_by_id_of_scalar_none
      apply scalar_eq_none.mpr
      intro y hy
      obtain ⟨w2, hw2, he⟩ := h y hy
      have hall := scalar_eq_none.mp hsw w2 hw2
      have hfw : (y.wallet_id == w.wallet_id) = false := by
        rw [he]
        exact hall
      simp [hfw]
    | some row =>
      have hrun0 : WalletRepository.delete db w =
          { db with
            wallets := deleteFirst (fun r => r.wallet_id == w.wallet_id)
              db.wallets
            histories := db.histories.filter
              (fun r => !(r.wallet_id == row.wallet_id)) } := by
        unfold WalletRepository.delete
        rw [hsw]
      rw [hrun0]
      apply get_history_by_id_of_scalar_none
      apply scalar_eq_none.mpr
      intro y hy
      have hy2 := List.mem_filter.mp hy
      have hroww : row.wallet_id = w.wallet_id := by
        simpa using (scalar_eq_some hsw).1
      have hfw : (y.wallet_id == w.wallet_id) = false := by
        rw [← hroww]
        have h3 := hy2.2
        simp only [Bool.not_eq_eq_eq_not, Bool.not_true] at h3
        exact h3
      simp [hfw]

/-- The previous theorem instantiated: deleting wallet 1 of the concrete
database keeps referential integrity and leaves no history visible under
wallet 1. -/
theorem refIntegrity_invariant_spec_witness :
    RefIntegrity (WalletRepository.delete exDB
      { wallet_id := 1, name := "z", histories := [] }) ∧
    WalletRepository.get_history_by_id
      (WalletRepository.delete exDB
        { wallet_id := 1, name := "z", histories := [] }) 1 10 = none :=
  ⟨refIntegrity_invariant_spec.2.2.1 exDB
      { wallet_id := 1, name := "z", histories := [] } (by decide),
   refIntegrity_invariant_spec.2.2.2.2.2.2.2 exDB
      { wallet_id := 1, name := "z", histories := [] } 10 (by decide)⟩

/-- In the intended model (session handling and entity conversion
repaired): moving a history that exists under the source wallet to an
existing destination wallet succeeds and returns the history with the
destination's id as wallet_id (all other fields unchanged); afterwards the
scoped lookup under the destination finds exactly that history while the
lookup under the source fails — except when source and destination
coincide, in which case the move is a legal no-op leaving the database
unchanged and the single lookup still succeeds with the history
unchanged. -/
theorem moveHistory_spec (db : DB)
    (wallet_id history_id destination_id : Nat) (h : History) (w : Wallet)
    (hWF : WF db)
    (hH : WalletRepository.get_history_by_id db wallet_id history_id =
      some h)
    (hW : WalletRepository.get_by_id db destination_id = some w) :
    ∃ db2,
      MoveHistory.execute db wallet_id history_id destination_id =
        (Except.ok { h with wallet_id := destination_id }, db2) ∧
      WalletRepository.get_history_by_id db2 destination_id history_id =
        some { h with wallet_id := destination_id } ∧
      (wallet_id ≠ destination_id →
        WalletRepository.get_history_by_id db2 wallet_id history_id =
          none) ∧
      (wallet_id = destination_id → db2 = db ∧
        WalletRepository.get_history_by_id db2 wallet_id history_id =
          some h) := by
  obtain ⟨r, hscal, he, hrw, hrh, hrmem⟩ := get_history_by_id_eq_some hH
  obtain ⟨rw2, hsw, hwe, hww⟩ := get_by_id_eq_some hW
  subst he
  subst hwe
  rw [← hww] at hW ⊢
  have hpos : ¬ (⟨r.history_id, r.name, r.amount, r.type, r.history_at,
      rw2.wallet_id⟩ : History).amount ≤ 0 := by
    show ¬ r.amount ≤ 0
    have := hWF.2.2.2.1 r hrmem
    omega
  have hs' : scalar (fun x => x.wallet_id == wallet_id &&
      x.history_id == r.history_id) db.histories = some r := by
    rw [hrh]; exact hscal
  have hrun := update_history_run
    (h := (⟨r.history_id, r.name, r.amount, r.type, r.history_at,
      rw2.wallet_id⟩ : History)) hs' hpos
  have hexec : MoveHistory.execute db wallet_id history_id rw2.wallet_id =
      (Except.ok (⟨r.history_id, r.name, r.amount, r.type, r.history_at,
        rw2.wallet_id⟩ : History),
       { db with
         histories := updateFirst
           (fun x => x.wallet_id == wallet_id &&
             x.history_id == r.history_id)
           (fun x => x.update ⟨r.history_id, r.name, r.amount, r.type,
             r.history_at, rw2.wallet_id⟩) db.histories }) := by
    unfold MoveHistory.execute
    rw [hH, hW]
    show ((WalletRepository.update_history db wallet_id
        ⟨r.history_id, r.name, r.amount, r.type, r.history_at,
          rw2.wallet_id⟩).1.map (fun _ => (⟨r.history_id, r.name, r.amount,
        r.type, r.history_at, rw2.wallet_id⟩ : History)),
      (WalletRepository.update_history db wallet_id
        ⟨r.history_id, r.name, r.amount, r.type, r.history_at,
          rw2.wallet_id⟩).2) = _
    rw [hrun]
    rfl
  obtain ⟨l₁, l₂, hdec, hfail, hptrue⟩ := scalar_decomp hs'
  have hupd : updateFirst (fun x => x.wallet_id == wallet_id &&
      x.history_id == r.history_id)
      (fun x => x.update ⟨r.history_id, r.name, r.amount, r.type,
        r.history_at, rw2.wallet_id⟩) db.histories =
      l₁ ++ (r.update ⟨r.history_id, r.name, r.amount, r.type, r.history_at,
        rw2.wallet_id⟩) :: l₂ := by
    rw [hdec]
    exact updateFirst_append _ r l₂ hfail hptrue
  have hdb2 : ({ db with
      histories := updateFirst
        (fun x => x.wallet_id == wallet_id &&
          x.history_id == r.history_id)
        (fun x => x.update ⟨r.history_id, r.name, r.amount, r.type,
          r.history_at, rw2.wallet_id⟩) db.histories } : DB).histories =
      l₁ ++ (r.update ⟨r.history_id, r.name, r.amount, r.type, r.history_at,
        rw2.wallet_id⟩) :: l₂ := hupd
  have hU2 : (l₁ ++ r :: l₂).Pairwise
      (fun a b => a.history_id ≠ b.history_id) := by
    have h2 := hWF.2.1
    unfold HistoryIdsUnique at h2
    rw [hdec] at h2
    exact h2
  have hne : ∀ y, (y ∈ l₁ ∨ y ∈ l₂) → y.history_id ≠ history_id :=
    fun y hy => hrh ▸ pairwise_ids_decomp hU2 y hy
  have hu_id : (r.update ⟨r.history_id, r.name, r.amount, r.type,
      r.history_at, rw2.wallet_id⟩).history_id = history_id := hrh
  refine ⟨_, hexec, ?_, ?_, ?_⟩
  · have hgetDest := get_after_update_decomp rw2.wallet_id hdb2 hne hu_id
    rw [hgetDest]
    have hbD : ((r.update ⟨r.history_id, r.name, r.amount, r.type,
        r.history_at, rw2.wallet_id⟩).wallet_id == rw2.wallet_id) =
        true := by
      show (rw2.wallet_id == rw2.wallet_id) = true
      simp
    simp only [hbD, if_pos]
    rfl
  · intro hne3
    have hgetSrc := get_after_update_decomp wallet_id hdb2 hne hu_id
    rw [hgetSrc]
    have hbS : ((r.update ⟨r.history_id, r.name, r.amount, r.type,
        r.history_at, rw2.wallet_id⟩).wallet_id == wallet_id) = false := by
      show (rw2.wallet_id == wallet_id) = false
      exact beq_eq_false_iff_ne.mpr (Ne.symm hne3)
    simp [hbS]
  · intro heq4
    have hMr : (⟨r.history_id, r.name, r.amount, r.type, r.history_at,
        rw2.wallet_id⟩ : History) = r.to_entity := by
      rw [← heq4, ← hrw]
      rfl
    have hu_self : r.update ⟨r.history_id, r.name, r.amount, r.type,
        r.history_at, rw2.wallet_id⟩ = r := by
      rw [hMr]
      exact HistoryORM.update_self r
    have hU : updateFirst (fun x => x.wallet_id == wallet_id &&
        x.history_id == r.history_id)
        (fun x => x.update ⟨r.history_id, r.name, r.amount, r.type,
          r.history_at, rw2.wallet_id⟩) db.histories = db.histories := by
      rw [hupd, hu_self, ← hdec]
    constructor
    · rw [hU]
    · have hdbeq : ({ db with
          histories := updateFirst
            (fun x => x.wallet_id == wallet_id &&
              x.history_id == r.history_id)
            (fun x => x.update ⟨r.history_id, r.name, r.amount, r.type,
              r.history_at, rw2.wallet_id⟩) db.histories } : DB) = db := by
        rw [hU]
      rw [hdbeq]
      exact hH

/-- The previous theorem instantiated: moving history 10 from wallet 1 to
the existing wallet 2 of the concrete database. -/
theorem moveHistory_spec_witness :
    ∃ db2,
      MoveHistory.execute exDB 1 10 2 =
        (Except.ok { exH10 with wallet_id := 2 }, db2) ∧
      WalletRepository.get_history_by_id db2 2 10 =
        some { exH10 with wallet_id := 2 } ∧
      ((1 : Nat) ≠ 2 →
        WalletRepository.get_history_by_id db2 1 10 = none) ∧
      ((1 : Nat) = 2 → db2 = exDB ∧
        WalletRepository.get_history_by_id db2 1 10 = some exH10) :=
  moveHistory_spec exDB 1 10 2 exH10
    { wallet_id := 2, name := "b", histories := [] }
    (by decide) (by decide) (by decide)

/-- Claim C1 (code bug): in the source, MoveHistory never succeeds — it
raises TypeError at `async with self.session` (use_cases.py:167) on every
call, and even its intended body would raise pydantic ValidationError
loading the existing source history (`from_attribute` typo, models.py:16).
Evaluated at a concrete well-formed input (history 10 under wallet 1,
destination wallet 2 existing), the code as written fails instead of
moving the history. -/
theorem moveHistory_asWritten_bug :
    MoveHistory.execute_asWritten exDB 1 10 2 =
      (Except.error PyException.typeError, exDB) ∧
    WalletRepository.get_history_by_id_asWritten exDB 1 10 =
      Except.error PyException.validationError :=
  ⟨rfl, rfl⟩

/-- Claim C2 (code bug): the `NotFound("wallet")` path of MoveHistory is
unreachable in the source — the use case raises TypeError at
`async with self.session` (use_cases.py:167) before any session work, and
even the intended body would raise ValidationError loading the source
history before the destination check.  Evaluated at a concrete input where
the destination wallet 99 is indeed absent, the code fails with TypeError,
not NotFound. -/
theorem moveHistory_dest_missing_asWritten_bug :
    MoveHistory.execute_asWritten exDB 1 10 99 =
      (Except.error PyException.typeError, exDB) ∧
    WalletRepository.get_by_id_asWritten exDB 99 = Except.ok none :=
  ⟨rfl, rfl⟩

/-- Claim C3 (code bug): `WalletRepository.add` passes the invalid keyword
`history=[]` to `WalletORM` (wallet.py:121; the mapped attribute is
`histories`), so add raises TypeError on every call and no wallet is ever
created; reading an existing wallet back also raises ValidationError in
`to_entity` (`from_attribute` typo, models.py:16). -/
theorem wallet_add_asWritten_bug :
    WalletRepository.add_asWritten exDB "c" =
      Except.error PyException.typeError ∧
    WalletRepository.get_by_id_asWritten exDB 1 =
      Except.error PyException.validationError :=
  ⟨rfl, rfl⟩

/-- Claim C6 (code bug): updating an existing wallet overwrites the name
and flushes, but the success return `wallet_.to_entity()` raises pydantic
ValidationError (`from_attribute` typo, models.py:16), so update never
returns a wallet — and a subsequent read-back would raise the same error.
Evaluated at a concrete input: wallet 1 exists, its name is overwritten in
the session, and the call fails instead of returning. -/
theorem wallet_update_asWritten_bug :
    WalletRepository.update_asWritten exDB
      { wallet_id := 1, name := "c", histories := [] } =
      (Except.error PyException.validationError,
       { exDB with
         wallets := [{ wallet_id := 1, name := "c" },
                     { wallet_id := 2, name := "b" }] }) ∧
    WalletRepository.get_by_id_asWritten exDB 1 =
      Except.error PyException.validationError :=
  ⟨rfl, rfl⟩

/-- Claim C7 (code bug): DeleteHistory raises TypeError at
`async with self.session` (use_cases.py:135) on every call, so even
deleting an already-absent history — here (wallet 2, history 10), which
the faithful scoped lookup confirms is absent — does not succeed
silently, and no first deletion can ever succeed either. -/
theorem deleteHistory_asWritten_bug :
    DeleteHistory.excute_asWritten exDB 2 10 =
      (Except.error PyException.typeError, exDB) ∧
    WalletRepository.get_history_by_id_asWritten exDB 2 10 =
      Except.ok none :=
  ⟨rfl, rfl⟩

/-- Claim C8 (code bug): on the success path of add_history the row is
inserted and flushed, but `history.to_entity()` then raises ValidationError
(`from_attribute` typo, models.py:16), so addHistory never returns a
History; the `CHECK (amount > 0)` rejection of amount -3 with the state
unchanged is real. -/
theorem add_history_asWritten_bug :
    WalletRepository.add_history_asWritten exDB 1 "x" 7
      HistoryType.INCOME 0 =
      (Except.error PyException.validationError,
       { exDB with
         histories := exDB.histories ++
           [{ history_id := 12, name := "x", amount := 7,
              type := HistoryType.INCOME, wallet_id := 1,
              history_at := 0 }]
         next_history_id := 13 }) ∧
    WalletRepository.add_history_asWritten exDB 1 "x" (-3)
      HistoryType.INCOME 0 =
      (Except.error (PyException.appError AppError.integrityError), exDB) :=
  ⟨rfl, rfl⟩

/-- Claim C10 (code bug): UpdateHistory never succeeds in the source — it
raises TypeError at `async with self.session` (use_cases.py:104) on every
call, and even the intended body would raise ValidationError loading the
history — so the success-conditioned owner-preservation holds only in the
repaired model. -/
theorem updateHistory_asWritten_bug :
    UpdateHistory.excute_asWritten exDB 1 10 "t" 7 HistoryType.OUTCOME 5 =
      (Except.error PyException.typeError, exDB) ∧
    WalletRepository.get_history_by_id_asWritten exDB 1 10 =
      Except.error PyException.validationError :=
  ⟨rfl, rfl⟩
